import Mathlib

/-!
# Verification of the UCSB baseball statistics pipeline

A shallow embedding, in Lean 4, of the computational core of
`UCSB_Baseball_Stats.py`: position normalization, the California state
classifier, metric extraction (type coercion of raw cell text), the WAR
calculator, the per-player processing loops, and the position/state
aggregation.  Strings are modelled as `List Char`; Python `float`
arithmetic is modelled by exact rationals (`ℚ`); Python exceptions are
modelled by `Except PyErr`.  The external collaborators (HTTP fetching and
HTML parsing) are abstracted as already-located raw text per field, as the
specification's external-interface section prescribes.
-/

/-- Conversion from Lean string literals to the model's strings
(strings of the Python program are modelled as `List Char`). -/
def sl (s : String) : List Char := s.toList

/-- The characters that Python's default `str.strip` removes
(space, tab, newline, carriage return, vertical tab, form feed). -/
def pyWs (c : Char) : Bool :=
  c.toNat == 32 || c.toNat == 9 || c.toNat == 10 || c.toNat == 13 ||
  c.toNat == 11 || c.toNat == 12

/-- Leading-whitespace removal. -/
def trimL (l : List Char) : List Char := l.dropWhile pyWs

/-- Trailing-whitespace removal. -/
def trimR (l : List Char) : List Char := (l.reverse.dropWhile pyWs).reverse

/-- Python's `str.strip()`: remove leading and trailing whitespace. -/
def pyStrip (l : List Char) : List Char := trimR (trimL l)

/-- Decides whether `n` is a prefix of `h`. -/
def isPrefixB : List Char → List Char → Bool
  | [], _ => true
  | _ :: _, [] => false
  | a :: as, b :: bs => a == b && isPrefixB as bs

/-- Python's substring test `n in h`. -/
def isSubstrB (n : List Char) : List Char → Bool
  | [] => n.isEmpty
  | b :: bs => isPrefixB n (b :: bs) || isSubstrB n bs

/-- The prefix of `l` before its first `'/'` (Python `l.split('/')[0]`
when `'/' in l`, and all of `l` otherwise). -/
def beforeSlash (l : List Char) : List Char :=
  l.takeWhile (fun c => c != '/')

-- ## Generic list lemmas used by the string layer

theorem takeWhile_all {p : Char → Bool} {l : List Char}
    (h : ∀ a ∈ l, p a = true) : l.takeWhile p = l := by
  induction l with
  | nil => rfl
  | cons x xs ih =>
      simp only [List.takeWhile_cons, h x (List.mem_cons_self x xs), if_true]
      exact congrArg (x :: ·) (ih fun a ha => h a (List.mem_cons_of_mem x ha))

theorem dropWhile_idem {p : Char → Bool} {l : List Char} :
    (l.dropWhile p).dropWhile p = l.dropWhile p := by
  induction l with
  | nil => rfl
  | cons x xs ih =>
      by_cases hx : p x = true
      · simpa [List.dropWhile_cons, hx] using ih
      · simp [List.dropWhile_cons, hx]

theorem takeWhile_stop {p : Char → Bool} {l r : List Char}
    (h : ∃ a ∈ l, p a = false) :
    (l ++ r).takeWhile p = l.takeWhile p := by
  induction l with
  | nil =>
      rcases h with ⟨a, ha, _⟩
      exact absurd ha (List.not_mem_nil a)
  | cons x xs ih =>
      by_cases hx : p x = true
      · rcases h with ⟨a, ha, hpa⟩
        rcases List.mem_cons.mp ha with rfl | ha'
        · exact absurd hx (by simp [hpa])
        · simp only [List.cons_append, List.takeWhile_cons, hx, if_true]
          exact congrArg (x :: ·) (ih ⟨a, ha', hpa⟩)
      · simp [List.takeWhile_cons, hx]

-- ## Structure of `pyStrip`

theorem trimL_append_allWs {w l : List Char} (h : ∀ a ∈ w, pyWs a = true) :
    trimL (w ++ l) = trimL l := by
  simpa [trimL] using List.dropWhile_append_of_pos h

theorem trimR_append_allWs {l v : List Char} (h : ∀ a ∈ v, pyWs a = true) :
    trimR (l ++ v) = trimR l := by
  unfold trimR
  rw [List.reverse_append, List.dropWhile_append_of_pos (by simpa using h)]

theorem pyStrip_append_allWs_left {w l : List Char}
    (h : ∀ a ∈ w, pyWs a = true) : pyStrip (w ++ l) = pyStrip l := by
  unfold pyStrip
  rw [trimL_append_allWs h]

theorem pyStrip_append_allWs_right {l v : List Char}
    (h : ∀ a ∈ v, pyWs a = true) : pyStrip (l ++ v) = pyStrip l := by
  unfold pyStrip trimL
  rw [List.dropWhile_append]
  split
  · next hemp =>
      have h0 : List.dropWhile pyWs l = [] := by
        simpa [List.isEmpty_iff] using hemp
      have hv : List.dropWhile pyWs v = [] := by
        rw [List.dropWhile_eq_nil_iff]
        exact h
      rw [h0, hv]
  · next hemp =>
      exact trimR_append_allWs h

/-- Every `l` decomposes as its `trimR` part followed by its trailing whitespace. -/
theorem trimR_decomp (l : List Char) :
    trimR l ++ (l.reverse.takeWhile pyWs).reverse = l := by
  unfold trimR
  rw [← List.reverse_append, List.takeWhile_append_dropWhile, List.reverse_reverse]

theorem mem_trailingWs {l : List Char} {a : Char}
    (h : a ∈ (l.reverse.takeWhile pyWs).reverse) : pyWs a = true :=
  List.mem_takeWhile_imp (List.mem_reverse.mp h)

-- ## Characters: ASCII upper-casing (Python `str.upper` on the inputs in scope)

theorem char_eq_of_toNat_eq {a b : Char} (h : a.toNat = b.toNat) : a = b :=
  Char.eq_of_val_eq (UInt32.eq_of_toBitVec_eq (BitVec.eq_of_toNat_eq h))

theorem char_toNat_ofNat_valid {n : Nat} (h : n.isValidChar) :
    (Char.ofNat n).toNat = n := by
  unfold Char.ofNat
  rw [dif_pos h]
  rfl

theorem toUpper_toNat (c : Char) :
    c.toUpper.toNat =
      if 97 ≤ c.toNat ∧ c.toNat ≤ 122 then c.toNat - 32 else c.toNat := by
  unfold Char.toUpper
  split
  · next h =>
      rw [if_pos (by omega)]
      exact char_toNat_ofNat_valid (Or.inl (by omega))
  · next h =>
      rw [if_neg (by omega)]

theorem pyWs_toUpper (c : Char) : pyWs c.toUpper = pyWs c := by
  have key : ∀ m : Nat, 33 ≤ m →
      ((m == 32 || m == 9 || m == 10 || m == 13 || m == 11 || m == 12) = false) := by
    intro m hm
    have h1 : (m == 32) = false := by simp; omega
    have h2 : (m == 9) = false := by simp; omega
    have h3 : (m == 10) = false := by simp; omega
    have h4 : (m == 13) = false := by simp; omega
    have h5 : (m == 11) = false := by simp; omega
    have h6 : (m == 12) = false := by simp; omega
    rw [h1, h2, h3, h4, h5, h6]
    rfl
  unfold pyWs
  rw [toUpper_toNat]
  by_cases h : 97 ≤ c.toNat ∧ c.toNat ≤ 122
  · rw [if_pos h, key _ (by omega), key _ (by omega)]
  · rw [if_neg h]

theorem toUpper_eq_slash_iff (c : Char) : c.toUpper = '/' ↔ c = '/' := by
  constructor
  · intro h
    have h1 : c.toUpper.toNat = 47 := by rw [h]; rfl
    rw [toUpper_toNat] at h1
    by_cases hc : 97 ≤ c.toNat ∧ c.toNat ≤ 122
    · rw [if_pos hc] at h1; omega
    · rw [if_neg hc] at h1
      exact char_eq_of_toNat_eq h1
  · intro h
    rw [h]
    rfl

theorem beq_slash_toUpper (c : Char) : (c.toUpper == '/') = (c == '/') := by
  by_cases h : c = '/'
  · rw [h]; rfl
  · have h1 : (c == '/') = false := beq_eq_false_iff_ne.mpr h
    have h2 : (c.toUpper == '/') = false :=
      beq_eq_false_iff_ne.mpr (fun he => h ((toUpper_eq_slash_iff c).mp he))
    rw [h1, h2]

theorem bne_slash_toUpper (c : Char) : (c.toUpper != '/') = (c != '/') := by
  unfold bne
  rw [beq_slash_toUpper]

-- ## Commuting upper-casing with stripping and cutting

theorem pyWs_comp_toUpper : (pyWs ∘ Char.toUpper) = pyWs := by
  funext c
  exact pyWs_toUpper c

theorem trimL_map_toUpper (l : List Char) :
    trimL (l.map Char.toUpper) = (trimL l).map Char.toUpper := by
  unfold trimL
  rw [List.dropWhile_map, pyWs_comp_toUpper]

theorem trimR_map_toUpper (l : List Char) :
    trimR (l.map Char.toUpper) = (trimR l).map Char.toUpper := by
  unfold trimR
  rw [← List.map_reverse, List.dropWhile_map, pyWs_comp_toUpper, List.map_reverse]

theorem pyStrip_map_toUpper (l : List Char) :
    pyStrip (l.map Char.toUpper) = (pyStrip l).map Char.toUpper := by
  unfold pyStrip
  rw [trimL_map_toUpper, trimR_map_toUpper]

theorem bne_slash_comp_toUpper :
    ((fun c : Char => c != '/') ∘ Char.toUpper) = (fun c : Char => c != '/') := by
  funext c
  exact bne_slash_toUpper c

theorem beforeSlash_map_toUpper (l : List Char) :
    beforeSlash (l.map Char.toUpper) = (beforeSlash l).map Char.toUpper := by
  unfold beforeSlash
  rw [List.takeWhile_map, bne_slash_comp_toUpper]

-- ## The main cut/strip commuting lemma

theorem ws_not_slash {a : Char} (h : pyWs a = true) : (a != '/') = true := by
  unfold pyWs at h
  simp only [Bool.or_eq_true, beq_iff_eq] at h
  have h47 : a.toNat ≠ 47 := by omega
  exact bne_iff_ne.mpr (fun he => h47 (by rw [he]; rfl))

theorem beforeSlash_append_allWs {w l : List Char}
    (h : ∀ a ∈ w, pyWs a = true) :
    beforeSlash (w ++ l) = w ++ beforeSlash l := by
  unfold beforeSlash
  exact List.takeWhile_append_of_pos (fun a ha => ws_not_slash (h a ha))

theorem beforeSlash_allWs {v : List Char} (h : ∀ a ∈ v, pyWs a = true) :
    beforeSlash v = v :=
  takeWhile_all (fun a ha => ws_not_slash (h a ha))

/-- Cutting at the first `'/'` commutes with removing trailing whitespace,
up to a final strip. -/
theorem strip_before_trimR (t : List Char) :
    pyStrip (beforeSlash (trimR t)) = pyStrip (beforeSlash t) := by
  have hdec := trimR_decomp t
  set u := trimR t with hu
  set v := (t.reverse.takeWhile pyWs).reverse with hv
  have hvws : ∀ a ∈ v, pyWs a = true := fun a ha => mem_trailingWs ha
  by_cases hs : ∃ a ∈ u, (a != '/') = false
  · have h1 : beforeSlash t = beforeSlash u := by
      rw [← hdec]
      exact takeWhile_stop hs
    rw [h1]
  · push_neg at hs
    have hall : ∀ a ∈ u, (a != '/') = true := by
      intro a ha
      cases hb : (a != '/') with
      | false => exact absurd hb (hs a ha)
      | true => rfl
    have h1 : beforeSlash u = u := takeWhile_all hall
    have h2 : beforeSlash t = u ++ v := by
      rw [← hdec]
      unfold beforeSlash
      rw [List.takeWhile_append_of_pos hall]
      exact congrArg (u ++ ·) (beforeSlash_allWs hvws)
    rw [h1, h2, pyStrip_append_allWs_right hvws]

/-- Cutting at the first `'/'` commutes with removing leading whitespace,
up to a final strip. -/
theorem strip_before_trimL (s : List Char) :
    pyStrip (beforeSlash (trimL s)) = pyStrip (beforeSlash s) := by
  have hdec : s.takeWhile pyWs ++ s.dropWhile pyWs = s :=
    List.takeWhile_append_dropWhile pyWs s
  have hwws : ∀ a ∈ s.takeWhile pyWs, pyWs a = true :=
    fun a ha => List.mem_takeWhile_imp ha
  have h1 : beforeSlash s =
      s.takeWhile pyWs ++ beforeSlash (s.dropWhile pyWs) := by
    conv_lhs => rw [← hdec]
    exact beforeSlash_append_allWs hwws
  rw [h1, pyStrip_append_allWs_left hwws]
  rfl

/-- Stripping before cutting at the first `'/'` agrees with cutting first,
up to the final strip:  `strip (before (strip s)) = strip (before s)`. -/
theorem strip_before_strip (s : List Char) :
    pyStrip (beforeSlash (pyStrip s)) = pyStrip (beforeSlash s) := by
  unfold pyStrip
  have h1 := strip_before_trimR (trimL s)
  have h2 := strip_before_trimL s
  unfold pyStrip at h1 h2
  rw [h1, h2]

-- ## Membership helpers for single-character substring tests

theorem isSubstrB_singleton (c : Char) (l : List Char) :
    isSubstrB [c] l = l.any (fun a => c == a) := by
  induction l with
  | nil => rfl
  | cons b bs ih =>
      simp only [isSubstrB, isPrefixB, List.any_cons, Bool.and_true, ih]

theorem mem_trimR_sub {a : Char} {l : List Char} (h : a ∈ trimR l) : a ∈ l := by
  unfold trimR at h
  exact List.mem_reverse.mp (List.dropWhile_subset pyWs (List.mem_reverse.mp h))

theorem mem_pyStrip_sub {a : Char} {l : List Char} (h : a ∈ pyStrip l) : a ∈ l := by
  unfold pyStrip trimL at h
  exact (List.dropWhile_sublist pyWs).subset (mem_trimR_sub h)

theorem no_slash_of_strip {s : List Char}
    (h : ∀ a ∈ pyStrip s, a ≠ '/') : ∀ a ∈ s, a ≠ '/' := by
  intro a ha
  have hdec : s.takeWhile pyWs ++ s.dropWhile pyWs = s :=
    List.takeWhile_append_dropWhile pyWs s
  rw [← hdec] at ha
  rcases List.mem_append.mp ha with hw | hm
  · intro he
    have hws := List.mem_takeWhile_imp hw
    have := ws_not_slash hws
    rw [he] at this
    simp [bne] at this
  · have hdec2 := trimR_decomp (s.dropWhile pyWs)
    rw [← hdec2] at hm
    rcases List.mem_append.mp hm with hu | hv
    · exact h a hu
    · intro he
      have hws := mem_trailingWs hv
      have := ws_not_slash hws
      rw [he] at this
      simp [bne] at this

-- ## Position Normalizer (`normalize_position`, source lines 260-315)

/-- The elif-chain of `normalize_position` (source lines 272-315), applied to
the pre-processed string. -/
def posRules (t : List Char) : List Char :=
  if t = sl "C" then sl "C"
  else if isSubstrB (sl "CATCHER") t then sl "C"
  else if isSubstrB (sl "1B") t then sl "1B"
  else if isSubstrB (sl "2B") t then sl "2B"
  else if isSubstrB (sl "3B") t then sl "3B"
  else if isSubstrB (sl "SS") t then sl "SS"
  else if isSubstrB (sl "LF") t then sl "LF"
  else if isSubstrB (sl "CF") t then sl "CF"
  else if isSubstrB (sl "RF") t then sl "RF"
  else if isSubstrB (sl "OF") t then sl "OF"
  else if isSubstrB (sl "OUTFIELDER") t then sl "OF"
  else if isSubstrB (sl "OUFIELD") t then sl "OF"
  else if isSubstrB (sl "INF") t then sl "IF"
  else if isSubstrB (sl "DH") t then sl "DH"
  else if t = sl "P" then sl "P"
  else if isSubstrB (sl "PITCHER") t then sl "P"
  else if isSubstrB (sl "RHP") t || isSubstrB (sl "LHP") t then sl "P"
  else if isSubstrB (sl "SP") t then sl "SP"
  else if isSubstrB (sl "RP") t then sl "RP"
  else if isSubstrB (sl "UTIL") t then sl "UTIL"
  else if isSubstrB (sl "UT") t then sl "UTIL"
  else sl "Unknown"

/-- The function `normalize_position` (source lines 260-315): empty input yields `Unknown`;
otherwise the input is stripped and upper-cased, a multi-position string is
cut at its first `'/'` and re-stripped, and the elif-chain is applied. -/
def normalize_position (s : List Char) : List Char :=
  if s.isEmpty then sl "Unknown"
  else
    let t := (pyStrip s).map Char.toUpper
    let t2 := if isSubstrB (sl "/") t then pyStrip (beforeSlash t) else t
    posRules t2

/-- The ordered rule list of specification section 4.1, written from the
spec's words (rules 1-12, first match wins), applied per claim C4 to the
upper-cased, trimmed substring before the first `'/'` of the input. -/
def specRules (x : List Char) : List Char :=
  if x = sl "C" then sl "C"
  else if isSubstrB (sl "CATCHER") x then sl "C"
  else if isSubstrB (sl "1B") x then sl "1B"
  else if isSubstrB (sl "2B") x then sl "2B"
  else if isSubstrB (sl "3B") x then sl "3B"
  else if isSubstrB (sl "SS") x then sl "SS"
  else if isSubstrB (sl "LF") x then sl "LF"
  else if isSubstrB (sl "CF") x then sl "CF"
  else if isSubstrB (sl "RF") x then sl "RF"
  else if isSubstrB (sl "OF") x || isSubstrB (sl "OUTFIELDER") x ||
          isSubstrB (sl "OUFIELD") x then sl "OF"
  else if isSubstrB (sl "INF") x then sl "IF"
  else if isSubstrB (sl "DH") x then sl "DH"
  else if x = sl "P" then sl "P"
  else if isSubstrB (sl "PITCHER") x || isSubstrB (sl "RHP") x ||
          isSubstrB (sl "LHP") x then sl "P"
  else if isSubstrB (sl "SP") x then sl "SP"
  else if isSubstrB (sl "RP") x then sl "RP"
  else if isSubstrB (sl "UTIL") x then sl "UTIL"
  else if isSubstrB (sl "UT") x then sl "UTIL"
  else sl "Unknown"

/-- Claim C4's reading of the spec: the section 4.1 rule list (including its
rules 1 and 2) applied to the upper-cased, trimmed substring of the input
before the first `'/'`. -/
def specNormalize (s : List Char) : List Char :=
  let x := (pyStrip (beforeSlash s)).map Char.toUpper
  if x.isEmpty then sl "Unknown"
  else
    let x2 := if isSubstrB (sl "/") x then beforeSlash x else x
    specRules x2

-- ## Equality of the code's chain and the spec's rule list

theorem if_or {α : Type} (a b : Bool) (r e : α) :
    (if (a || b) = true then r else e) =
      if a = true then r else if b = true then r else e := by
  cases a <;> simp

theorem specRules_eq_posRules (x : List Char) : specRules x = posRules x := by
  unfold specRules posRules
  simp only [if_or]

theorem beq_slash_left_toUpper (a : Char) :
    (('/' : Char) == a.toUpper) = (('/' : Char) == a) := by
  by_cases hc : a = '/'
  · rw [hc]; rfl
  · have h1 : (('/' : Char) == a) = false :=
      beq_eq_false_iff_ne.mpr (fun he => hc he.symm)
    have h2 : (('/' : Char) == a.toUpper) = false :=
      beq_eq_false_iff_ne.mpr
        (fun he => hc ((toUpper_eq_slash_iff a).mp he.symm))
    rw [h1, h2]

theorem hasSlash_map_toUpper (l : List Char) :
    isSubstrB (sl "/") (l.map Char.toUpper) = isSubstrB (sl "/") l := by
  have h : sl "/" = ['/'] := rfl
  rw [h, isSubstrB_singleton, isSubstrB_singleton, List.any_map]
  have hf : ((fun a : Char => ('/' : Char) == a) ∘ Char.toUpper)
      = (fun a : Char => ('/' : Char) == a) := by
    funext a
    exact beq_slash_left_toUpper a
  rw [hf]

theorem no_slash_of_not_hasSlash {l : List Char}
    (h : isSubstrB (sl "/") l = false) : ∀ a ∈ l, a ≠ '/' := by
  intro a ha he
  have h1 : sl "/" = ['/'] := rfl
  rw [h1, isSubstrB_singleton] at h
  have h2 : l.any (fun c => ('/' : Char) == c) = true :=
    List.any_eq_true.mpr ⟨a, ha, by rw [he]; rfl⟩
  rw [h] at h2
  exact Bool.false_ne_true h2

theorem beforeSlash_of_no_slash {l : List Char}
    (h : ∀ a ∈ l, a ≠ '/') : beforeSlash l = l :=
  takeWhile_all (fun a ha => bne_iff_ne.mpr (h a ha))

/-- The pre-processing of `normalize_position` (strip, upper-case, cut at the
first `'/'`, re-strip) agrees with the claim's pre-processing (cut, strip,
upper-case). -/
theorem codePre_eq (s : List Char) :
    (if isSubstrB (sl "/") ((pyStrip s).map Char.toUpper)
       then pyStrip (beforeSlash ((pyStrip s).map Char.toUpper))
       else (pyStrip s).map Char.toUpper)
    = (pyStrip (beforeSlash s)).map Char.toUpper := by
  by_cases hsl : isSubstrB (sl "/") ((pyStrip s).map Char.toUpper) = true
  · rw [if_pos hsl, beforeSlash_map_toUpper, pyStrip_map_toUpper,
      strip_before_strip]
  · rw [if_neg hsl]
    have h0 : isSubstrB (sl "/") ((pyStrip s).map Char.toUpper) = false :=
      Bool.of_not_eq_true hsl
    rw [hasSlash_map_toUpper] at h0
    have h1 : ∀ a ∈ s, a ≠ '/' :=
      no_slash_of_strip (no_slash_of_not_hasSlash h0)
    rw [beforeSlash_of_no_slash h1]

/-- After the claim's pre-processing, no `'/'` remains, so rule 2 of the
spec's list is a no-op. -/
theorem specPre_no_slash (s : List Char) :
    isSubstrB (sl "/") ((pyStrip (beforeSlash s)).map Char.toUpper) = false := by
  rw [hasSlash_map_toUpper]
  have h1 : sl "/" = ['/'] := rfl
  rw [h1, isSubstrB_singleton, List.any_eq_false]
  intro a ha he
  have h2 : a ∈ beforeSlash s := mem_pyStrip_sub ha
  unfold beforeSlash at h2
  have h3 := List.mem_takeWhile_imp h2
  have h4 : a = '/' := (beq_iff_eq.mp he).symm
  have h5 : (a != '/') = true := h3
  rw [h4] at h5
  simp [bne] at h5

/-- The function `normalize_position` computes exactly the spec's rule list applied to the
claim's pre-processed input. -/
theorem normalize_position_eq_spec (s : List Char) :
    normalize_position s = specNormalize s := by
  by_cases hemp : s.isEmpty
  · have hs : s = [] := List.isEmpty_iff.mp hemp
    subst hs
    rfl
  · unfold normalize_position specNormalize
    dsimp only
    rw [if_neg hemp]
    have hpre := codePre_eq s
    rw [hpre]
    by_cases hx : ((pyStrip (beforeSlash s)).map Char.toUpper).isEmpty = true
    · rw [if_pos hx]
      have hx0 : (pyStrip (beforeSlash s)).map Char.toUpper = [] :=
        List.isEmpty_iff.mp hx
      rw [hx0]
      decide
    · rw [if_neg hx,
        if_neg (by rw [specPre_no_slash s]; exact Bool.false_ne_true)]
      exact (specRules_eq_posRules _).symm

/-- The canonical position codes of the specification's glossary. -/
def canonicalCodes : List (List Char) :=
  [sl "C", sl "1B", sl "2B", sl "3B", sl "SS", sl "LF", sl "CF", sl "RF",
   sl "OF", sl "DH", sl "P", sl "SP", sl "RP", sl "IF", sl "UTIL",
   sl "Unknown"]

theorem ite_mem_codes (c : Prop) (inst : Decidable c) (a b : List Char)
    (ha : a ∈ canonicalCodes) (hb : b ∈ canonicalCodes) :
    (@ite _ c inst a b) ∈ canonicalCodes := by
  split
  · exact ha
  · exact hb

theorem posRules_mem (t : List Char) : posRules t ∈ canonicalCodes := by
  unfold posRules
  repeat refine ite_mem_codes _ _ _ _ (by decide) ?_
  decide

theorem normalize_position_mem (s : List Char) :
    normalize_position s ∈ canonicalCodes := by
  unfold normalize_position
  split_ifs
  · decide
  all_goals exact posRules_mem _

/-- C4: `normalize_position` always returns one of the canonical codes, it is
computed by the first-match-wins rule list of spec section 4.1 applied to the
upper-cased, trimmed substring before the first `'/'` of the input, and the
spec's three examples hold. -/
theorem C4_normalize_position :
    (∀ s : List Char, normalize_position s ∈ canonicalCodes ∧
        normalize_position s = specNormalize s) ∧
    normalize_position (sl "3B/OF") = sl "3B" ∧
    normalize_position (sl "rhp") = sl "P" ∧
    normalize_position (sl "") = sl "Unknown" := by
  refine ⟨fun s => ⟨normalize_position_mem s, normalize_position_eq_spec s⟩,
    ?_, ?_, ?_⟩
  · decide
  · decide
  · decide

-- ## State Classifier (`is_california_state`, source lines 255-258)

/-- The fixed list of California spelling variants (source line 257). -/
def california_states : List (List Char) :=
  [sl "CA", sl "California", sl "Calif.", sl "Calif", sl "Calf.", sl "Calf"]

/-- The classifier `is_california_state` (source lines 255-258): membership of the trimmed
input in the fixed, case-sensitive variant list. -/
def is_california_state (s : List Char) : Bool :=
  california_states.contains (pyStrip s)

/-- C6: `is_california_state` returns true exactly when the trimmed input is
one of the six case-sensitive variants, and the two spec examples hold. -/
theorem C6_is_california_state :
    (∀ s : List Char, is_california_state s = true ↔
        (pyStrip s = sl "CA" ∨ pyStrip s = sl "California" ∨
         pyStrip s = sl "Calif." ∨ pyStrip s = sl "Calif" ∨
         pyStrip s = sl "Calf." ∨ pyStrip s = sl "Calf")) ∧
    is_california_state (sl "Calif.") = true ∧
    is_california_state (sl "Texas") = false := by
  refine ⟨fun s => ?_, by decide, by decide⟩
  simp [is_california_state, california_states, List.mem_cons]

-- ## Typed stat values and Python exceptions

/-- A value stored in the per-player dictionary: a Python `float` (modelled
as an exact rational), an `int`, or a retained raw string. -/
inductive StatValue where
  | F (q : ℚ)
  | I (z : ℤ)
  | S (s : List Char)
deriving DecidableEq

/-- The Python exceptions the modelled code can raise. -/
inductive PyErr where
  | typeError
  | keyError
deriving DecidableEq

/-- Numeric view of a stat value (`None` for a string). -/
def toNum : StatValue → Option ℚ
  | .F q => some q
  | .I z => some (z : ℚ)
  | .S _ => none

/-- Python truthiness of a stat value. -/
def truthy : StatValue → Bool
  | .F q => q != 0
  | .I z => z != 0
  | .S s => !s.isEmpty

/-- Python truthiness of `dict.get(key)` (absent keys are falsy). -/
def truthyOpt : Option StatValue → Bool
  | none => false
  | some v => truthy v

/-- Multiplication of a stat value by a float constant: raises `TypeError`
on a string operand (the constant is a `float`, so no string repetition). -/
def pyMulFl (v : StatValue) (q : ℚ) : Except PyErr ℚ :=
  match toNum v with
  | some x => .ok (x * q)
  | none => .error .typeError

/-- Subtraction `q - v` of a stat value from a float constant. -/
def pySubFl (q : ℚ) (v : StatValue) : Except PyErr ℚ :=
  match toNum v with
  | some x => .ok (q - x)
  | none => .error .typeError

/-- Python `+` on two dictionary values: numeric addition, string
concatenation, and `TypeError` on a mixed pair. -/
def pyAdd (a b : StatValue) : Except PyErr StatValue :=
  match a, b with
  | .I x, .I y => .ok (.I (x + y))
  | .I x, .F y => .ok (.F ((x : ℚ) + y))
  | .F x, .I y => .ok (.F (x + (y : ℚ)))
  | .F x, .F y => .ok (.F (x + y))
  | .S x, .S y => .ok (.S (x ++ y))
  | .S _, .I _ => .error .typeError
  | .S _, .F _ => .error .typeError
  | .I _, .S _ => .error .typeError
  | .F _, .S _ => .error .typeError

-- ## Python `int(...)` and `float(...)` on strings

def isDig (c : Char) : Bool := 48 ≤ c.toNat && c.toNat ≤ 57

def natOfDigits (l : List Char) : ℕ :=
  l.foldl (fun a c => 10 * a + (c.toNat - 48)) 0

/-- Split off an optional leading `'+'`/`'-'` sign; returns the sign as an
integer together with the rest. -/
def stripSign : List Char → ℤ × List Char
  | '+' :: r => (1, r)
  | '-' :: r => (-1, r)
  | r => (1, r)

/-- Python `int(s)` on a raw cell text: optional surrounding whitespace, an
optional sign and a nonempty run of ASCII digits; anything else raises
`ValueError` (modelled as `none`).  Digit-group underscores and non-ASCII
digits accepted by Python are outside the model. -/
def pyIntParse (s : List Char) : Option ℤ :=
  let t := pyStrip s
  let sd := stripSign t
  if !sd.2.isEmpty && sd.2.all isDig then
    some (sd.1 * (natOfDigits sd.2 : ℤ))
  else none

/-- Split a list at every occurrence of the character `c`. -/
def splitOnChar (c : Char) : List Char → List (List Char)
  | [] => [[]]
  | a :: as =>
      match splitOnChar c as with
      | [] => if a == c then [[], [a]] else [[a]]
      | h :: t => if a == c then [] :: h :: t else (a :: h) :: t

/-- The mantissa of a Python float literal: digits, optionally with one
decimal point, at least one digit in total. -/
def parseMantissa (m : List Char) : Option ℚ :=
  match splitOnChar '.' m with
  | [i] => if !i.isEmpty && i.all isDig then some ((natOfDigits i : ℚ)) else none
  | [i, f] =>
      if (!i.isEmpty || !f.isEmpty) && i.all isDig && f.all isDig then
        some ((natOfDigits i : ℚ) + (natOfDigits f : ℚ) / (10 : ℚ) ^ f.length)
      else none
  | _ => none

/-- The exponent part of a Python float literal. -/
def parseExponent (e : List Char) : Option ℤ :=
  let sd := stripSign e
  if !sd.2.isEmpty && sd.2.all isDig then
    some (sd.1 * (natOfDigits sd.2 : ℤ))
  else none

/-- Python `float(s)` on a raw cell text: optional surrounding whitespace,
optional sign, decimal mantissa, optional `e`/`E` exponent; failure is
`ValueError` (modelled as `none`).  The non-finite literals `inf`/`nan` and
digit-group underscores are outside the model. -/
def pyFloatParse (s : List Char) : Option ℚ :=
  let t := pyStrip s
  let sd := stripSign t
  let body := sd.2.map (fun c => if c == 'E' then 'e' else c)
  match splitOnChar 'e' body with
  | [m] => (parseMantissa m).map (fun q => (sd.1 : ℚ) * q)
  | [m, ex] =>
      match parseMantissa m, parseExponent ex with
      | some q, some z => some ((sd.1 : ℚ) * q * (10 : ℚ) ^ z)
      | _, _ => none
  | _ => none

-- ## Player records

/-- The per-player dictionary built by the scraper.  Fixed well-typed fields
are modelled as structure fields; the numeric/statistical keys live in the
`stats` association list (key order and overwrite semantics as in a Python
dict). -/
structure PlayerRec where
  year : ℤ := 0
  position : Option (List Char) := none
  is_in_state : Option Bool := none
  name : Option (List Char) := none
  pid : Option (List Char) := none
  jersey : Option (List Char) := none
  bio_url : Option (List Char) := none
  hometown : Option (List Char) := none
  state : Option (List Char) := none
  stats : List (List Char × StatValue) := []
  war : Option ℚ := none
deriving DecidableEq

-- ## WAR Calculator (`calculate_war`, source lines 317-386)

/-- The position-adjustment dictionary (source lines 28-48), as the total
function `self.position_adjustments.get(position, 0)`. -/
def position_adjustments (s : List Char) : ℚ :=
  if s = sl "C" then 12.5
  else if s = sl "1B" then -12.5
  else if s = sl "2B" then 2.5
  else if s = sl "3B" then 2.5
  else if s = sl "SS" then 7.5
  else if s = sl "LF" then -7.5
  else if s = sl "CF" then 2.5
  else if s = sl "RF" then -7.5
  else if s = sl "DH" then -17.5
  else if s = sl "P" then 0
  else if s = sl "RP" then 0
  else if s = sl "SP" then 0
  else if s = sl "OF" then -2.5
  else if s = sl "IF" then 0
  else if s = sl "UTL" then 0
  else if s = sl "UTIL" then 0
  else if s = sl "INF" then 0
  else if s = sl "OF/IF" then 0
  else if s = sl "Unknown" then 0
  else 0

/-- The lookup `self.position_adjustments.get(position, 0)` where `position` is
`player_data.get('position')` (default `0` also when the key is absent). -/
def pos_adjustment_of (p : PlayerRec) : ℚ :=
  match p.position with
  | some s => position_adjustments s
  | none => 0

/-- Whether the record's position is in the pitcher family
(`position in ['P', 'SP', 'RP']`, source line 333). -/
def isPitcherPos (p : PlayerRec) : Prop :=
  p.position = some (sl "P") ∨ p.position = some (sl "SP") ∨
  p.position = some (sl "RP")

instance (p : PlayerRec) : Decidable (isPitcherPos p) := by
  unfold isPitcherPos
  infer_instance

/-- The innings-pitched preparation of `calculate_war` (source lines
336-342): `ip = player_data.get('pitching_IP', 0)`, with a string value
converted by `float(ip)` and falling back to `0` on `ValueError`. -/
def ipValue (p : PlayerRec) : ℚ :=
  match (List.lookup (sl "pitching_IP") p.stats).getD (.I 0) with
  | .S s => match pyFloatParse s with
            | some q => q
            | none => 0
  | .I z => (z : ℚ)
  | .F q => q

/-- The function `calculate_war` (source lines 317-386).  Python exceptions
(`TypeError` from arithmetic on retained raw strings) are modelled in
`Except`; the returned float is an exact rational. -/
def calculate_war (p : PlayerRec) : Except PyErr ℚ :=
  -- constants of the source: runs_per_win = 10.0, replacement_level = 0.0,
  -- league_avg_woba = 0.320, woba_scale = 1.2, league_avg_era = 4.0
  let pos_adjustment := pos_adjustment_of p
  if isPitcherPos p then
    match List.lookup (sl "pitching_ERA") p.stats with
    | some era =>
        if ipValue p > 0 then do
          let era_difference ← pySubFl 4 era
          let war_value := era_difference * (ipValue p / 9) / 10
          if p.position = some (sl "RP") ∧
              truthyOpt (List.lookup (sl "pitching_SV") p.stats) = true then
            pure (war_value * 1.5)
          else
            pure war_value
        else pure 0
    | none => pure 0
  else
    match List.lookup (sl "batting_OBP") p.stats,
          List.lookup (sl "batting_SLG") p.stats,
          List.lookup (sl "batting_AB") p.stats with
    | some obp, some slg, some ab => do
        let t1 ← pyMulFl obp 1.75
        let t2 ← pyMulFl slg 0.7
        let woba := t1 + t2
        let bb := (List.lookup (sl "batting_BB") p.stats).getD (.I 0)
        let hbp := (List.lookup (sl "batting_HBP") p.stats).getD (.I 0)
        let paV ← pyAdd (← pyAdd ab bb) hbp
        -- `(woba - league_avg_woba) * woba_scale * pa / 100`: a float is
        -- multiplied by `pa`, so a string `pa` raises TypeError here
        let pa ← match toNum paV with
                 | some q => Except.ok q
                 | none => Except.error PyErr.typeError
        let offensive_runs := (woba - 0.320) * 1.2 * pa / 100
        let position_runs := pos_adjustment * pa / 600
        let war_value := (offensive_runs + position_runs) / 10 + 0
        if p.position = some (sl "C") then
          pure (war_value + 0.5)
        else if p.position = some (sl "SS") ∨ p.position = some (sl "2B") then
          pure (war_value + 0.3)
        else
          pure war_value
    | _, _, _ => pure 0

-- ## Evaluation lemmas for `calculate_war`

theorem pySubFl_num {v : StatValue} {e : ℚ} (h : toNum v = some e) (q : ℚ) :
    pySubFl q v = .ok (q - e) := by
  unfold pySubFl
  rw [h]

theorem pyMulFl_num {v : StatValue} {x : ℚ} (h : toNum v = some x) (q : ℚ) :
    pyMulFl v q = .ok (x * q) := by
  unfold pyMulFl
  rw [h]

theorem pyAdd_num {a b : StatValue} {x y : ℚ}
    (ha : toNum a = some x) (hb : toNum b = some y) :
    ∃ c, pyAdd a b = .ok c ∧ toNum c = some (x + y) := by
  cases a with
  | S s => exact absurd ha (by simp [toNum])
  | I za =>
      cases b with
      | S s => exact absurd hb (by simp [toNum])
      | I zb =>
          refine ⟨.I (za + zb), rfl, ?_⟩
          simp only [toNum] at ha hb ⊢
          rw [← Option.some_inj.mp ha, ← Option.some_inj.mp hb]
          push_cast
          rfl
      | F qb =>
          refine ⟨.F ((za : ℚ) + qb), rfl, ?_⟩
          simp only [toNum] at ha hb ⊢
          rw [← Option.some_inj.mp ha, ← Option.some_inj.mp hb]
  | F qa =>
      cases b with
      | S s => exact absurd hb (by simp [toNum])
      | I zb =>
          refine ⟨.F (qa + (zb : ℚ)), rfl, ?_⟩
          simp only [toNum] at ha hb ⊢
          rw [← Option.some_inj.mp ha, ← Option.some_inj.mp hb]
      | F qb =>
          refine ⟨.F (qa + qb), rfl, ?_⟩
          simp only [toNum] at ha hb ⊢
          rw [← Option.some_inj.mp ha, ← Option.some_inj.mp hb]

/-- Full evaluation of the pitcher branch when ERA is numeric and the
prepared innings value is positive. -/
theorem calculate_war_pitcher_eval (p : PlayerRec) (v : StatValue) (e : ℚ)
    (hpos : isPitcherPos p)
    (hera : List.lookup (sl "pitching_ERA") p.stats = some v)
    (hnum : toNum v = some e)
    (hip : ipValue p > 0) :
    calculate_war p =
      .ok (((4 : ℚ) - e) * (ipValue p / 9) / 10 *
        (if p.position = some (sl "RP") ∧
            truthyOpt (List.lookup (sl "pitching_SV") p.stats) = true
         then 1.5 else 1)) := by
  unfold calculate_war
  rw [if_pos hpos, hera]
  dsimp only
  rw [if_pos hip, pySubFl_num hnum 4]
  show Except.bind (Except.ok ((4 : ℚ) - e)) _ = _
  rw [Except.bind]
  by_cases hrp : p.position = some (sl "RP") ∧
      truthyOpt (List.lookup (sl "pitching_SV") p.stats) = true
  · rw [if_pos hrp, if_pos hrp]
    rfl
  · rw [if_neg hrp, if_neg hrp, mul_one]
    rfl

/-- The pitcher branch yields 0.0 when ERA is absent or the prepared
innings value is not positive. -/
theorem calculate_war_pitcher_zero (p : PlayerRec)
    (hpos : isPitcherPos p)
    (h : List.lookup (sl "pitching_ERA") p.stats = none ∨ ¬ ipValue p > 0) :
    calculate_war p = .ok 0 := by
  unfold calculate_war
  rw [if_pos hpos]
  rcases h with hnone | hip
  · rw [hnone]
    rfl
  · cases hera : List.lookup (sl "pitching_ERA") p.stats with
    | none => rfl
    | some v =>
        dsimp only
        rw [if_neg hip]
        rfl

theorem okBind {α β : Type} (a : α) (f : α → Except PyErr β) :
    (Except.ok a >>= f) = f a := rfl

/-- Full evaluation of the position-player branch when OBP, SLG and AB are
present and numeric and walks/hit-by-pitch are numeric or absent. -/
theorem calculate_war_position_eval (p : PlayerRec) (vo vg va : StatValue)
    (o g a bq hq : ℚ)
    (hnp : ¬ isPitcherPos p)
    (hobp : List.lookup (sl "batting_OBP") p.stats = some vo)
    (ho : toNum vo = some o)
    (hslg : List.lookup (sl "batting_SLG") p.stats = some vg)
    (hg : toNum vg = some g)
    (hab : List.lookup (sl "batting_AB") p.stats = some va)
    (ha : toNum va = some a)
    (hbb : toNum ((List.lookup (sl "batting_BB") p.stats).getD (.I 0)) = some bq)
    (hhbp : toNum ((List.lookup (sl "batting_HBP") p.stats).getD (.I 0)) = some hq) :
    calculate_war p =
      .ok (((o * 1.75 + g * 0.7 - 0.320) * 1.2 * (a + bq + hq) / 100 +
            pos_adjustment_of p * (a + bq + hq) / 600) / 10 +
        (if p.position = some (sl "C") then 0.5
         else if p.position = some (sl "SS") ∨ p.position = some (sl "2B")
         then 0.3 else 0)) := by
  unfold calculate_war
  rw [if_neg hnp, hobp, hslg, hab]
  dsimp only
  rw [pyMulFl_num ho 1.75, okBind, pyMulFl_num hg 0.7, okBind]
  obtain ⟨c1, hc1, hc1n⟩ := pyAdd_num ha hbb
  rw [hc1, okBind]
  obtain ⟨c2, hc2, hc2n⟩ := pyAdd_num hc1n hhbp
  rw [hc2, okBind, hc2n]
  dsimp only
  rw [okBind]
  by_cases hc : p.position = some (sl "C")
  · rw [if_pos hc, if_pos hc]
    refine congrArg Except.ok ?_
    ring
  · rw [if_neg hc, if_neg hc]
    by_cases hm : p.position = some (sl "SS") ∨ p.position = some (sl "2B")
    · rw [if_pos hm, if_pos hm]
      refine congrArg Except.ok ?_
      ring
    · rw [if_neg hm, if_neg hm]
      refine congrArg Except.ok ?_
      ring

/-- The position-player branch yields 0.0 when OBP, SLG or AB is absent. -/
theorem calculate_war_position_zero (p : PlayerRec)
    (hnp : ¬ isPitcherPos p)
    (h : List.lookup (sl "batting_OBP") p.stats = none ∨
         List.lookup (sl "batting_SLG") p.stats = none ∨
         List.lookup (sl "batting_AB") p.stats = none) :
    calculate_war p = .ok 0 := by
  unfold calculate_war
  rw [if_neg hnp]
  rcases h with h1 | h2 | h3
  · rw [h1]
    cases List.lookup (sl "batting_SLG") p.stats <;>
      cases List.lookup (sl "batting_AB") p.stats <;> rfl
  · rw [h2]
    cases List.lookup (sl "batting_OBP") p.stats <;>
      cases List.lookup (sl "batting_AB") p.stats <;> rfl
  · rw [h3]
    cases List.lookup (sl "batting_OBP") p.stats <;>
      cases List.lookup (sl "batting_SLG") p.stats <;> rfl

deriving instance DecidableEq for Except

-- ## Claim C1: position-player WAR

/-- The spec's worked position-player example: obp=0.400, slg=0.500, ab=200,
bb=30, hbp=5, position SS. -/
def c1ex : PlayerRec :=
  { position := some (sl "SS"),
    stats := [(sl "batting_OBP", .F 0.4), (sl "batting_SLG", .F 0.5),
              (sl "batting_AB", .I 200), (sl "batting_BB", .I 30),
              (sl "batting_HBP", .I 5)] }

/-- C1 (amended): for a non-pitcher record whose OBP, SLG and AB are present
as numbers and whose walks and hit-by-pitch are numeric when present
(defaulting to 0 when absent), `calculate_war` returns the spec's formula
with the C/SS/2B flat bonuses; when OBP, SLG or AB is absent it returns 0.0;
and the spec's SS example evaluates to 0.79961 within 1e-3. -/
theorem C1_position_player_war :
    (∀ (p : PlayerRec) (vo vg va : StatValue) (o g a bq hq : ℚ),
        ¬ isPitcherPos p →
        List.lookup (sl "batting_OBP") p.stats = some vo → toNum vo = some o →
        List.lookup (sl "batting_SLG") p.stats = some vg → toNum vg = some g →
        List.lookup (sl "batting_AB") p.stats = some va → toNum va = some a →
        toNum ((List.lookup (sl "batting_BB") p.stats).getD (.I 0)) = some bq →
        toNum ((List.lookup (sl "batting_HBP") p.stats).getD (.I 0)) = some hq →
        calculate_war p =
          .ok (((o * 1.75 + g * 0.7 - 0.320) * 1.2 * (a + bq + hq) / 100 +
                pos_adjustment_of p * (a + bq + hq) / 600) / 10 +
            (if p.position = some (sl "C") then 0.5
             else if p.position = some (sl "SS") ∨ p.position = some (sl "2B")
             then 0.3 else 0))) ∧
    (∀ p : PlayerRec, ¬ isPitcherPos p →
        (List.lookup (sl "batting_OBP") p.stats = none ∨
         List.lookup (sl "batting_SLG") p.stats = none ∨
         List.lookup (sl "batting_AB") p.stats = none) →
        calculate_war p = .ok 0) ∧
    (calculate_war c1ex = .ok (79961 / 100000) ∧
     |(79961 : ℚ) / 100000 - 0.79961| < 1 / 1000) := by
  refine ⟨calculate_war_position_eval, calculate_war_position_zero, ?_, ?_⟩
  · have h := calculate_war_position_eval c1ex (.F 0.4) (.F 0.5) (.I 200)
      0.4 0.5 200 30 5 (by decide) rfl rfl rfl rfl rfl rfl rfl rfl
    rw [h]
    have hpa : pos_adjustment_of c1ex = 7.5 := rfl
    have hbonus : (if c1ex.position = some (sl "C") then (0.5 : ℚ)
        else if c1ex.position = some (sl "SS") ∨ c1ex.position = some (sl "2B")
        then 0.3 else 0) = 0.3 := rfl
    rw [hpa, hbonus]
    refine congrArg Except.ok ?_
    norm_num
  · norm_num

/-- C1 witness: the amended theorem applied to the spec's SS example. -/
theorem C1_position_player_war_witness :
    calculate_war c1ex =
      .ok (((0.4 * 1.75 + 0.5 * 0.7 - 0.320) * 1.2 * (200 + 30 + 5) / 100 +
            pos_adjustment_of c1ex * (200 + 30 + 5) / 600) / 10 +
        (if c1ex.position = some (sl "C") then 0.5
         else if c1ex.position = some (sl "SS") ∨ c1ex.position = some (sl "2B")
         then 0.3 else 0)) :=
  C1_position_player_war.1 c1ex (.F 0.4) (.F 0.5) (.I 200) 0.4 0.5 200 30 5
    (by decide) rfl rfl rfl rfl rfl rfl rfl rfl

/-- A record inside claim C1's stated scope (non-pitcher, OBP/SLG/AB all
numeric) on which `calculate_war` does not return the claimed formula value:
`batting_BB` holds the retained raw text `"-"`, so `ab + bb` raises
`TypeError` instead of returning a float. -/
def c1bad : PlayerRec :=
  { position := some (sl "SS"),
    stats := [(sl "batting_OBP", .F 0.4), (sl "batting_SLG", .F 0.5),
              (sl "batting_AB", .I 200), (sl "batting_BB", .S (sl "-"))] }

/-- C1 counterexample: on `c1bad` the code raises `TypeError` (returns no
value at all), while the claim as stated promises the formula value. -/
theorem C1_counterexample :
    calculate_war c1bad = .error .typeError := by decide

-- ## Claim C2: pitcher WAR

/-- The spec's worked pitcher example: era=3.0, ip=50, position SP. -/
def c2ex : PlayerRec :=
  { position := some (sl "SP"),
    stats := [(sl "pitching_ERA", .F 3), (sl "pitching_IP", .I 50)] }

/-- C2 (amended): for a pitcher-family record with a numeric ERA and a
prepared innings value greater than 0, `calculate_war` returns
`(4.0 - era) * (ip / 9) / 10`, multiplied by 1.5 exactly when the position
is RP and `pitching_SV` is present with a truthy value (nonzero number or
nonempty string); when ERA is absent or the innings value is not positive it
returns 0.0; and the spec's SP example evaluates to 0.5556 within 1e-3. -/
theorem C2_pitcher_war :
    (∀ (p : PlayerRec) (v : StatValue) (e : ℚ),
        isPitcherPos p →
        List.lookup (sl "pitching_ERA") p.stats = some v →
        toNum v = some e →
        ipValue p > 0 →
        calculate_war p =
          .ok (((4 : ℚ) - e) * (ipValue p / 9) / 10 *
            (if p.position = some (sl "RP") ∧
                truthyOpt (List.lookup (sl "pitching_SV") p.stats) = true
             then 1.5 else 1))) ∧
    (∀ p : PlayerRec, isPitcherPos p →
        (List.lookup (sl "pitching_ERA") p.stats = none ∨ ¬ ipValue p > 0) →
        calculate_war p = .ok 0) ∧
    (calculate_war c2ex = .ok (5 / 9) ∧
     |(5 : ℚ) / 9 - 0.5556| < 1 / 1000) := by
  refine ⟨calculate_war_pitcher_eval, calculate_war_pitcher_zero, ?_, ?_⟩
  · have hip : ipValue c2ex > 0 := by
      rw [show ipValue c2ex = ((50 : ℤ) : ℚ) from rfl]
      norm_num
    have h := calculate_war_pitcher_eval c2ex (.F 3) 3 (by decide) rfl rfl hip
    rw [h]
    have hb : (if c2ex.position = some (sl "RP") ∧
        truthyOpt (List.lookup (sl "pitching_SV") c2ex.stats) = true
        then (1.5 : ℚ) else 1) = 1 := rfl
    rw [hb, show ipValue c2ex = ((50 : ℤ) : ℚ) from rfl]
    refine congrArg Except.ok ?_
    norm_num
  · rw [abs_lt]
    constructor <;> norm_num

/-- A pitcher record used to witness the amended boost condition: position
RP with a positive recorded save count. -/
def c2rp : PlayerRec :=
  { position := some (sl "RP"),
    stats := [(sl "pitching_ERA", .F 3), (sl "pitching_IP", .I 45),
              (sl "pitching_SV", .I 2)] }

/-- C2 witness: the amended theorem applied to a concrete RP record. -/
theorem C2_pitcher_war_witness :
    calculate_war c2rp =
      .ok (((4 : ℚ) - 3) * (ipValue c2rp / 9) / 10 *
        (if c2rp.position = some (sl "RP") ∧
            truthyOpt (List.lookup (sl "pitching_SV") c2rp.stats) = true
         then 1.5 else 1)) :=
  C2_pitcher_war.1 c2rp (.F 3) 3 (by decide) rfl rfl
    (by rw [show ipValue c2rp = ((45 : ℤ) : ℚ) from rfl]; norm_num)

/-- A record inside claim C2's stated scope on which the boost condition of
the claim fails: `pitching_SV` holds the retained raw text `"-"`, which is
truthy in Python although it is no recorded save total greater than 0. -/
def c2bad : PlayerRec :=
  { position := some (sl "RP"),
    stats := [(sl "pitching_ERA", .F 3), (sl "pitching_IP", .I 50),
              (sl "pitching_SV", .S (sl "-"))] }

/-- C2 counterexample: on `c2bad` the code multiplies by 1.5 (result 5/6),
while the claim as stated demands the unboosted value
`(4 - 3) * (50 / 9) / 10 = 5/9`, since the record has no recorded save
total greater than 0. -/
theorem C2_counterexample :
    calculate_war c2bad = .ok (5 / 6) ∧
    ¬ ((5 : ℚ) / 6 = ((4 : ℚ) - 3) * ((50 : ℚ) / 9) / 10) := by
  constructor
  · have hip : ipValue c2bad > 0 := by
      rw [show ipValue c2bad = ((50 : ℤ) : ℚ) from rfl]
      norm_num
    have h := calculate_war_pitcher_eval c2bad (.F 3) 3 (by decide) rfl rfl hip
    rw [h]
    have hb : (if c2bad.position = some (sl "RP") ∧
        truthyOpt (List.lookup (sl "pitching_SV") c2bad.stats) = true
        then (1.5 : ℚ) else 1) = 1.5 := rfl
    rw [hb, show ipValue c2bad = ((50 : ℤ) : ℚ) from rfl]
    refine congrArg Except.ok ?_
    norm_num
  · norm_num

-- ## Claim C10: string-valued innings pitched

theorem ipValue_str_some {p : PlayerRec} {s : List Char} {q : ℚ}
    (hl : List.lookup (sl "pitching_IP") p.stats = some (.S s))
    (hq : pyFloatParse s = some q) :
    ipValue p = q := by
  unfold ipValue
  rw [hl]
  dsimp only [Option.getD]
  rw [hq]

theorem ipValue_str_none {p : PlayerRec} {s : List Char}
    (hl : List.lookup (sl "pitching_IP") p.stats = some (.S s))
    (hq : pyFloatParse s = none) :
    ipValue p = 0 := by
  unfold ipValue
  rw [hl]
  dsimp only [Option.getD]
  rw [hq]

/-- C10: a string-valued `pitching_IP` (raw text retained after a failed int
parse) is converted with `float(...)`: a parsable string is used as the
innings value in the pitcher formula, an unparsable one yields innings 0 and
WAR 0.0, and in neither case does an exception escape the innings-pitched
handling. -/
theorem C10_ip_string_handling :
    (∀ (p : PlayerRec) (s : List Char) (q : ℚ),
        List.lookup (sl "pitching_IP") p.stats = some (.S s) →
        pyFloatParse s = some q →
        ipValue p = q) ∧
    (∀ (p : PlayerRec) (s : List Char),
        isPitcherPos p →
        List.lookup (sl "pitching_IP") p.stats = some (.S s) →
        pyFloatParse s = none →
        ipValue p = 0 ∧ calculate_war p = .ok 0) ∧
    (∀ (p : PlayerRec) (s : List Char) (q : ℚ) (v : StatValue) (e : ℚ),
        isPitcherPos p →
        List.lookup (sl "pitching_IP") p.stats = some (.S s) →
        pyFloatParse s = some q →
        q > 0 →
        List.lookup (sl "pitching_ERA") p.stats = some v →
        toNum v = some e →
        calculate_war p =
          .ok (((4 : ℚ) - e) * (q / 9) / 10 *
            (if p.position = some (sl "RP") ∧
                truthyOpt (List.lookup (sl "pitching_SV") p.stats) = true
             then 1.5 else 1))) := by
  refine ⟨fun p s q hl hq => ipValue_str_some hl hq,
    fun p s hpos hl hq => ?_, fun p s q v e hpos hl hq hq0 hera hnum => ?_⟩
  · have h0 := ipValue_str_none hl hq
    exact ⟨h0, calculate_war_pitcher_zero p hpos (Or.inr (by rw [h0]; norm_num))⟩
  · have h0 := ipValue_str_some hl hq
    have h := calculate_war_pitcher_eval p v e hpos hera hnum (by rw [h0]; exact hq0)
    rw [h, h0]

/-- The concrete float parse used by the C10 witness. -/
theorem parse_fifty_point_one : pyFloatParse (sl "50.1") = some (501 / 10) := by
  have h0 : pyFloatParse (sl "50.1") =
      some (((1 : ℤ) : ℚ) *
        (((50 : ℕ) : ℚ) + ((1 : ℕ) : ℚ) / (10 : ℚ) ^ (1 : ℕ))) := rfl
  rw [h0]
  refine congrArg some ?_
  norm_num

/-- A pitcher record whose innings-pitched cell retained the raw text
`"50.1"`. -/
def c10ex : PlayerRec :=
  { position := some (sl "SP"),
    stats := [(sl "pitching_ERA", .F 3), (sl "pitching_IP", .S (sl "50.1"))] }

/-- C10 witness: the theorem applied to a concrete record with the
fractional innings string `"50.1"`. -/
theorem C10_ip_string_handling_witness :
    pyFloatParse (sl "50.1") = some (501 / 10) ∧
    calculate_war c10ex =
      .ok (((4 : ℚ) - 3) * ((501 / 10 : ℚ) / 9) / 10 *
        (if c10ex.position = some (sl "RP") ∧
            truthyOpt (List.lookup (sl "pitching_SV") c10ex.stats) = true
         then 1.5 else 1)) :=
  ⟨parse_fifty_point_one,
    C10_ip_string_handling.2.2 c10ex (sl "50.1") (501 / 10) (.F 3) 3
      (by decide) rfl parse_fifty_point_one (by norm_num) rfl rfl⟩

-- ## Metric Extractor (`get_player_data`, source lines 121-191)

/-- One entry of the `metrics` dict literal:
(dict key, `data-label`, output key). -/
def MetricEntry : Type := List Char × List Char × List Char

deriving instance DecidableEq for MetricEntry

/-- The entries of the `metrics` dict literal exactly as written in source
lines 121-160, in order, duplicates included (`H`, `R`, `BB`, `SO`, `2B`,
`3B`, `HR` appear once in the batting section and again in the pitching
section). -/
def metricsEntries : List MetricEntry :=
  [(sl "AVG", sl "AVG", sl "batting_AVG"),
   (sl "OBP", sl "OB%", sl "batting_OBP"),
   (sl "SLG", sl "SLG%", sl "batting_SLG"),
   (sl "OPS", sl "OPS", sl "batting_OPS"),
   (sl "RBI", sl "RBI", sl "batting_RBI"),
   (sl "R", sl "R", sl "batting_R"),
   (sl "H", sl "H", sl "batting_H"),
   (sl "2B", sl "2B", sl "batting_2B"),
   (sl "3B", sl "3B", sl "batting_3B"),
   (sl "HR", sl "HR", sl "batting_HR"),
   (sl "BB", sl "BB", sl "batting_BB"),
   (sl "SO", sl "SO", sl "batting_SO"),
   (sl "AB", sl "AB", sl "batting_AB"),
   (sl "SB", sl "SB", sl "batting_SB"),
   (sl "ERA", sl "ERA", sl "pitching_ERA"),
   (sl "WHIP", sl "WHIP", sl "pitching_WHIP"),
   (sl "W-L", sl "W-L", sl "pitching_WL"),
   (sl "APP-GS", sl "APP-GS", sl "pitching_APP_GS"),
   (sl "CG", sl "CG", sl "pitching_CG"),
   (sl "SHO", sl "SHO", sl "pitching_SHO"),
   (sl "SV", sl "SV", sl "pitching_SV"),
   (sl "IP", sl "IP", sl "pitching_IP"),
   (sl "H", sl "H", sl "pitching_H"),
   (sl "R", sl "R", sl "pitching_R"),
   (sl "ER", sl "ER", sl "pitching_ER"),
   (sl "BB", sl "BB", sl "pitching_BB"),
   (sl "SO", sl "SO", sl "pitching_SO"),
   (sl "2B", sl "2B", sl "pitching_2B"),
   (sl "3B", sl "3B", sl "pitching_3B"),
   (sl "HR", sl "HR", sl "pitching_HR"),
   (sl "B/AVG", sl "B/AVG", sl "pitching_BAVG"),
   (sl "WP", sl "WP", sl "pitching_WP"),
   (sl "HBP", sl "HBP", sl "pitching_HBP"),
   (sl "BK", sl "BK", sl "pitching_BK"),
   (sl "SFA", sl "SFA", sl "pitching_SFA"),
   (sl "SHA", sl "SHA", sl "pitching_SHA")]

/-- Insertion into a Python dict literal: a repeated key keeps its original
position but its value is overwritten by the later entry. -/
def pyDictInsert (d : List MetricEntry) (e : MetricEntry) : List MetricEntry :=
  if d.any (fun x => x.1 == e.1) then
    d.map (fun x => if x.1 == e.1 then (x.1, e.2) else x)
  else d ++ [e]

/-- The `metrics` dict as Python builds it from the literal:  the duplicate
batting/pitching labels collapse, the later (pitching) `key` values win. -/
def metrics : List MetricEntry := metricsEntries.foldl pyDictInsert []

/-- Assignment `player_data[k] = v` on the stats association list. -/
def dictInsertKV (d : List (List Char × StatValue)) (k : List Char)
    (v : StatValue) : List (List Char × StatValue) :=
  if d.any (fun x => x.1 == k) then
    d.map (fun x => if x.1 == k then (k, v) else x)
  else d ++ [(k, v)]

/-- The dict keys coerced with `float(...)` (source line 180). -/
def rateMetricKeys : List (List Char) :=
  [sl "AVG", sl "OBP", sl "SLG", sl "OPS", sl "ERA", sl "WHIP", sl "B/AVG"]

/-- The dict keys coerced with `int(...)` (source line 185). -/
def countMetricKeys : List (List Char) :=
  [sl "RBI", sl "R", sl "H", sl "2B", sl "3B", sl "HR", sl "BB", sl "SO",
   sl "AB", sl "IP", sl "HBP", sl "WP", sl "BK", sl "SFA", sl "SHA", sl "SV"]

/-- The body of the metric-extraction loop (source lines 163-191) for one
dict entry: locate the cell by `data-label`, then coerce.  The special
`SB` handling mirrors the Python `try` block: a failure of the second
`int(...)` still leaves `batting_SB_successful` assigned. -/
def extractStep (cells : List (List Char × List Char))
    (pd : List (List Char × StatValue)) (e : MetricEntry) :
    List (List Char × StatValue) :=
  match List.lookup e.2.1 cells with
  | none => pd
  | some value =>
    if e.1 == sl "SB" && isSubstrB (sl "-") value then
      match splitOnChar '-' value with
      | [p1, p2] =>
          match pyIntParse p1 with
          | none => dictInsertKV pd e.2.2 (.S value)
          | some a =>
              match pyIntParse p2 with
              | none =>
                  dictInsertKV
                    (dictInsertKV pd (sl "batting_SB_successful") (.I a))
                    e.2.2 (.S value)
              | some b =>
                  dictInsertKV
                    (dictInsertKV
                      (dictInsertKV pd (sl "batting_SB_successful") (.I a))
                      (sl "batting_SB_attempted") (.I b))
                    e.2.2 (.S value)
      | _ => pd
    else if rateMetricKeys.contains e.1 then
      match pyFloatParse value with
      | some q => dictInsertKV pd e.2.2 (.F q)
      | none => dictInsertKV pd e.2.2 (.S value)
    else if countMetricKeys.contains e.1 then
      match pyIntParse value with
      | some z => dictInsertKV pd e.2.2 (.I z)
      | none => dictInsertKV pd e.2.2 (.S value)
    else dictInsertKV pd e.2.2 (.S value)

/-- The metric-extraction loop over the collapsed `metrics` dict. -/
def extractMetrics (cells : List (List Char × List Char))
    (init : List (List Char × StatValue)) : List (List Char × StatValue) :=
  metrics.foldl (extractStep cells) init

-- ## C3: shared batting/pitching labels

theorem lookup_append_single {k' k : List Char} {v : StatValue}
    {d : List (List Char × StatValue)} (h : k' ≠ k) :
    List.lookup k' (d ++ [(k, v)]) = List.lookup k' d := by
  rw [List.lookup_append]
  have h1 : List.lookup k' [(k, v)] = none := by
    rw [List.lookup_cons, beq_eq_false_iff_ne.mpr h]
    rfl
  rw [h1]
  cases List.lookup k' d <;> rfl

theorem lookup_map_overwrite {k' k : List Char} {v : StatValue}
    (h : k' ≠ k) (d : List (List Char × StatValue)) :
    List.lookup k'
        (d.map (fun x => if x.1 == k then (k, v) else x)) =
      List.lookup k' d := by
  induction d with
  | nil => rfl
  | cons a tl ih =>
      obtain ⟨a1, a2⟩ := a
      rw [List.map_cons]
      by_cases ha : (a1 == k) = true
      · rw [if_pos ha]
        have hk'k : (k' == k) = false := beq_eq_false_iff_ne.mpr h
        have hk'a : (k' == a1) = false := by
          rw [beq_iff_eq.mp ha]
          exact hk'k
        simp only [List.lookup_cons, hk'k, hk'a]
        exact ih
      · rw [if_neg ha]
        simp only [List.lookup_cons]
        cases hx : (k' == a1)
        · simp only [hx]
          exact ih
        · simp only [hx]

theorem lookup_dictInsertKV_ne {k' k : List Char} {v : StatValue}
    {d : List (List Char × StatValue)} (h : k' ≠ k) :
    List.lookup k' (dictInsertKV d k v) = List.lookup k' d := by
  unfold dictInsertKV
  split
  · exact lookup_map_overwrite h d
  · exact lookup_append_single h

theorem foldl_extractStep_lookup_ne (cells : List (List Char × List Char))
    (k' : List Char)
    (hsb1 : k' ≠ sl "batting_SB_successful")
    (hsb2 : k' ≠ sl "batting_SB_attempted") :
    ∀ (L : List MetricEntry) (init : List (List Char × StatValue)),
      (∀ e ∈ L, k' ≠ e.2.2) →
      List.lookup k' (L.foldl (extractStep cells) init) =
        List.lookup k' init := by
  have hstep : ∀ (pd : List (List Char × StatValue)) (e : MetricEntry),
      k' ≠ e.2.2 →
      List.lookup k' (extractStep cells pd e) = List.lookup k' pd := by
    intro pd e hk
    unfold extractStep
    cases hc : List.lookup e.2.1 cells with
    | none => rfl
    | some value =>
        dsimp only
        by_cases hs : (e.1 == sl "SB" && isSubstrB (sl "-") value) = true
        · rw [if_pos hs]
          cases hsp : splitOnChar '-' value with
          | nil => rfl
          | cons p1 rest =>
              cases rest with
              | nil => rfl
              | cons p2 rest2 =>
                  cases rest2 with
                  | cons _ _ => rfl
                  | nil =>
                      dsimp only
                      cases pyIntParse p1 with
                      | none => exact lookup_dictInsertKV_ne hk
                      | some a =>
                          cases pyIntParse p2 with
                          | none =>
                              rw [lookup_dictInsertKV_ne hk,
                                lookup_dictInsertKV_ne hsb1]
                          | some b =>
                              rw [lookup_dictInsertKV_ne hk,
                                lookup_dictInsertKV_ne hsb2,
                                lookup_dictInsertKV_ne hsb1]
        · rw [if_neg hs]
          by_cases h1 : rateMetricKeys.contains e.1 = true
          · rw [if_pos h1]
            cases pyFloatParse value with
            | none => exact lookup_dictInsertKV_ne hk
            | some q => exact lookup_dictInsertKV_ne hk
          · rw [if_neg h1]
            by_cases h2 : countMetricKeys.contains e.1 = true
            · rw [if_pos h2]
              cases pyIntParse value with
              | none => exact lookup_dictInsertKV_ne hk
              | some z => exact lookup_dictInsertKV_ne hk
            · rw [if_neg h2]
              exact lookup_dictInsertKV_ne hk
  intro L
  induction L with
  | nil => intro init _; rfl
  | cons e tl ih =>
      intro init hall
      rw [List.foldl_cons, ih _ (fun x hx => hall x (List.mem_cons_of_mem e hx)),
        hstep init e (hall e (List.mem_cons_self e tl))]

/-- C3: in the code as written, the shared batting/pitching stat labels are
not disambiguated: the duplicate keys of the `metrics` dict literal
collapse, the pitching entries win, so a cell read under the shared label
`H` is stored (typed) under `pitching_H`, and no input whatsoever can yield
the key `batting_H`. -/
theorem C3_shared_labels_collapse :
    List.lookup (sl "batting_H") (extractMetrics [(sl "H", sl "25")] []) =
      none ∧
    List.lookup (sl "pitching_H") (extractMetrics [(sl "H", sl "25")] []) =
      some (.I 25) ∧
    (∀ (cells : List (List Char × List Char))
       (init : List (List Char × StatValue)),
       List.lookup (sl "batting_H") (extractMetrics cells init) =
         List.lookup (sl "batting_H") init) := by
  refine ⟨by decide, by decide, fun cells init => ?_⟩
  unfold extractMetrics
  exact foldl_extractStep_lookup_ne cells (sl "batting_H") (by decide)
    (by decide) metrics init (by decide)

-- ## Per-row extraction (`get_player_data`, source lines 78-198)

/-- The already-located raw inputs for one roster row.  Per the spec's
external-interface section, the HTTP fetcher and the HTML locator are
abstracted: `bioFetchOk` tells whether `get_page` on the bio URL returned
content, and `bioPositionText` is the text of the span following the
`Position` field label when that label exists. -/
structure RowInput where
  year : ℤ := 0
  jerseyCell : Option (List Char) := none
  nameCell : Option (List Char) := none
  idAttr : Option (List Char) := none
  bioHref : Option (List Char) := none
  bioFetchOk : Bool := true
  bioPositionText : Option (List Char) := none
  cells : List (List Char × List Char) := []
deriving DecidableEq

/-- The body of the per-row `try` block (source lines 80-193).  Raises
`KeyError` when a name link exists but no bio link was found
(`player_data['bio_url']` at line 107), and `TypeError` when the bio page
fetch failed (`BeautifulSoup(None, ...)` at line 109). -/
def extractRow (r : RowInput) : Except PyErr PlayerRec := do
  let p0 : PlayerRec :=
    { year := r.year, position := some (sl "Unknown"),
      is_in_state := some false }
  let p1 := match r.jerseyCell with
    | some j => { p0 with jersey := some j }
    | none => p0
  let p2 ← match r.nameCell with
    | none => pure p1
    | some nm => do
        let pa := { p1 with name := some nm, pid := r.idAttr }
        let pb := match r.bioHref with
          | some h =>
              let url := if isPrefixB (sl "/") h
                then sl "https://ucsbgauchos.com" ++ h else h
              { pa with bio_url := some url }
          | none => pa
        match pb.bio_url with
        | none => Except.error PyErr.keyError
        | some _ =>
            if !r.bioFetchOk then Except.error PyErr.typeError
            else
              match r.bioPositionText with
              | some t => pure { pb with position := some (normalize_position t) }
              | none => pure pb
  pure { p2 with stats := extractMetrics r.cells p2.stats }

/-- The per-row loop of `get_player_data` (source lines 78-196): the `try/except/
continue` skips a row whose processing raised and keeps the rest. -/
def get_player_data (rows : List RowInput) : List PlayerRec :=
  rows.filterMap (fun r => (extractRow r).toOption)

-- ## Hometown enrichment (`get_player_hometown`, source lines 200-241)

/-- The already-located raw inputs of one player's bio page, as supplied by
the excluded fetch/HTML collaborators. -/
structure BioFetch where
  fetchOk : Bool := true
  bioTextNonempty : Bool := true
  hometownLoc : Option (List Char) := none
  positionElemText : Option (List Char) := none
deriving DecidableEq

/-- The function `extract_hometown_state` (source lines 243-253): the text after the
`Hometown` label, split at its first comma into (city, state), both
stripped; no label or no comma yields `(None, None)`. -/
def extract_hometown_state (loc : Option (List Char)) :
    Option (List Char) × Option (List Char) :=
  match loc with
  | some l =>
      if isSubstrB (sl ",") l then
        (some (pyStrip (l.takeWhile (fun c => c != ','))),
         some (pyStrip ((l.dropWhile (fun c => c != ',')).drop 1)))
      else (none, none)
  | none => (none, none)

/-- Source lines 234-239 of `get_player_hometown`: the final
`if player_data.get('state'):` truthiness check that sets `is_in_state`
(and defaults the state to California when it is absent or empty). -/
def ghwFinal (p2 : PlayerRec) : Except PyErr PlayerRec :=
  match p2.state with
  | some s =>
      if !s.isEmpty then
        .ok { p2 with is_in_state := some (is_california_state s) }
      else
        .ok { p2 with is_in_state := some true,
                      state := some (sl "California") }
  | none =>
      .ok { p2 with is_in_state := some true,
                    state := some (sl "California") }

/-- Source lines 228-239 of `get_player_hometown`: the position re-extraction
fallback (raising `KeyError` at `player_data['position']` when the key is
absent) followed by the final state check. -/
def ghwPosition (b : BioFetch) (p1 : PlayerRec) : Except PyErr PlayerRec :=
  match p1.position with
  | none => .error .keyError
  | some ps =>
      ghwFinal (if ps = sl "Unknown" then
          match b.positionElemText with
          | some t => { p1 with position := some (normalize_position t) }
          | none => p1
        else p1)

/-- Source lines 220-227 of `get_player_hometown`: the hometown/state
extraction from the bio text (skipped entirely when the page text is
empty/falsy). -/
def ghwHomeState (b : BioFetch) (p : PlayerRec) : PlayerRec :=
  if b.bioTextNonempty then
    { p with
      hometown := some (match (extract_hometown_state b.hometownLoc).1 with
        | some h => if h.isEmpty then sl "Unknown" else h
        | none => sl "Unknown"),
      state := some (match (extract_hometown_state b.hometownLoc).2 with
        | some s => if s.isEmpty then sl "California" else s
        | none => sl "California") }
  else p

/-- The function `get_player_hometown` (source lines 200-241): defaults the state to
California (and `is_in_state` to true) when the bio URL is missing, the
fetch fails, or no state is found. -/
def get_player_hometown (b : BioFetch) (p : PlayerRec) :
    Except PyErr PlayerRec :=
  match p.bio_url with
  | none =>
      .ok { p with hometown := some (sl "Unknown"),
                   state := some (sl "California"),
                   is_in_state := some true }
  | some _ =>
      if !b.fetchOk then
        .ok { p with hometown := some (sl "Unknown"),
                     state := some (sl "California"),
                     is_in_state := some true }
      else
        ghwPosition b (ghwHomeState b p)

-- ## The per-year processing loop (`process_all_years`, source lines 388-401)

/-- The Python `for` loop as a monadic map: the first raised exception
aborts the whole traversal (there is no handler in `process_all_years`). -/
def mapExcept {α β : Type} (f : α → Except PyErr β) :
    List α → Except PyErr (List β)
  | [] => .ok []
  | a :: as =>
      match f a with
      | .error e => .error e
      | .ok b =>
          match mapExcept f as with
          | .error e => .error e
          | .ok bs => .ok (b :: bs)

/-- The body of the per-player loop in `process_all_years` (source lines
395-401): hometown enrichment, then WAR, attached to the record. -/
def processPlayer (pb : PlayerRec × BioFetch) : Except PyErr PlayerRec := do
  let p ← get_player_hometown pb.2 pb.1
  let w ← calculate_war p
  pure { p with war := some w }

/-- The function `process_all_years` over a flattened list of (row, bio page) inputs:
rows are extracted with the per-row isolation of `get_player_data`, then
each surviving record is enriched and given a WAR value with no exception
handler around the loop body. -/
def process_all_years (rows : List (RowInput × BioFetch)) :
    Except PyErr (List PlayerRec) :=
  let players := rows.filterMap
    (fun rb => ((extractRow rb.1).toOption).map (fun p => (p, rb.2)))
  mapExcept processPlayer players

-- ## Claim C5: per-player isolation

/-- A row whose WAR calculation raises: the bio page gives position RHP
(a pitcher), the ERA cell holds the unparsable text `"NR"` (retained as a
string), and innings pitched is 50, so `league_avg_era - era` raises
`TypeError` inside `calculate_war`. -/
def c5bad : RowInput :=
  { year := 2024, nameCell := some (sl "Doe"),
    bioHref := some (sl "/roster/doe"),
    bioPositionText := some (sl "RHP"),
    cells := [(sl "ERA", sl "NR"), (sl "IP", sl "50")] }

/-- A well-behaved row (no name link, one batting cell). -/
def c5good : RowInput := { year := 2024, cells := [(sl "AVG", sl "300")] }

/-- C5 counterexample: both rows extract fine (extraction yields 2 records),
but the first record's WAR calculation raises and `process_all_years`
aborts with the exception — no result is produced for the remaining
record, contradicting the claim that one bad record only skips itself. -/
theorem C5_counterexample :
    (get_player_data [c5bad, c5good]).length = 2 ∧
    process_all_years [(c5bad, {}), (c5good, {})] =
      .error PyErr.typeError := by
  constructor
  · decide
  · decide

/-- C5 (amended): exceptions during per-row extraction are isolated — a row
whose `try` block raises is skipped and `get_player_data` returns the
records of all other rows; but in the enrichment/WAR loop of
`process_all_years` the first exception aborts the whole traversal. -/
theorem C5_per_player_isolation :
    (∀ (pre : List RowInput) (r : RowInput) (post : List RowInput),
        (extractRow r).toOption = none →
        get_player_data (pre ++ r :: post) =
          get_player_data pre ++ get_player_data post) ∧
    (∀ (l1 l2 : List (PlayerRec × BioFetch)) (pb : PlayerRec × BioFetch)
        (e : PyErr),
        (∀ x ∈ l1, ∃ y, processPlayer x = .ok y) →
        processPlayer pb = .error e →
        mapExcept processPlayer (l1 ++ pb :: l2) = .error e) := by
  constructor
  · intro pre r post h
    unfold get_player_data
    rw [List.filterMap_append, List.filterMap_cons, h]
  · intro l1 l2 pb e hall herr
    induction l1 with
    | nil =>
        rw [List.nil_append]
        unfold mapExcept
        rw [herr]
    | cons x xs ih =>
        obtain ⟨y, hy⟩ := hall x (List.mem_cons_self x xs)
        rw [List.cons_append]
        unfold mapExcept
        rw [hy, ih (fun z hz => hall z (List.mem_cons_of_mem x hz))]

/-- A row whose extraction raises: a name link exists but no bio link, so
`player_data['bio_url']` raises `KeyError` inside the `try` block. -/
def c5krow : RowInput := { nameCell := some (sl "Smith") }

/-- C5 witness: the amended isolation statement applied to a concrete bad
row between good rows. -/
theorem C5_per_player_isolation_witness :
    (extractRow c5krow).toOption = none ∧
    get_player_data [c5krow, c5good] =
      get_player_data [] ++ get_player_data [c5good] :=
  ⟨by decide, C5_per_player_isolation.1 [] c5krow [c5good] (by decide)⟩


-- ## Claim C7: California default on undetermined state

theorem ghwFinal_state_some_nonempty {p2 : PlayerRec} {s : List Char}
    (h : p2.state = some s) (hne : s.isEmpty = false) :
    ghwFinal p2 = .ok { p2 with is_in_state := some (is_california_state s) } := by
  unfold ghwFinal
  rw [h]
  dsimp only
  rw [hne]
  rfl

theorem ghwFinal_state_none {p2 : PlayerRec} (h : p2.state = none) :
    ghwFinal p2 = .ok { p2 with is_in_state := some true,
                                state := some (sl "California") } := by
  unfold ghwFinal
  rw [h]

theorem ghwFinal_defined (p2 q : PlayerRec) (h : ghwFinal p2 = .ok q) :
    q.state.isSome = true ∧ q.is_in_state.isSome = true := by
  unfold ghwFinal at h
  split at h
  · next s hs =>
      split at h
      · simp only [Except.ok.injEq] at h
        subst h
        constructor
        · show p2.state.isSome = true
          rw [hs]
          rfl
        · rfl
      · simp only [Except.ok.injEq] at h
        subst h
        exact ⟨rfl, rfl⟩
  · simp only [Except.ok.injEq] at h
    subst h
    exact ⟨rfl, rfl⟩

theorem ghwP2_state (b : BioFetch) (p1 : PlayerRec) (ps : List Char) :
    (if ps = sl "Unknown" then
        match b.positionElemText with
        | some t => { p1 with position := some (normalize_position t) }
        | none => p1
      else p1).state = p1.state := by
  split
  · cases b.positionElemText <;> rfl
  · rfl

theorem ghwPosition_cal {b : BioFetch} {p1 : PlayerRec}
    (hpos : p1.position.isSome = true)
    (hst : p1.state = some (sl "California")) :
    ∃ q, ghwPosition b p1 = .ok q ∧
      q.state = some (sl "California") ∧ q.is_in_state = some true := by
  obtain ⟨ps, hps⟩ := Option.isSome_iff_exists.mp hpos
  unfold ghwPosition
  rw [hps]
  dsimp only
  have hp2 : (if ps = sl "Unknown" then
      match b.positionElemText with
      | some t => { p1 with position := some (normalize_position t) }
      | none => p1
    else p1).state = some (sl "California") := by
    rw [ghwP2_state]
    exact hst
  refine ⟨_, ghwFinal_state_some_nonempty hp2 (by decide), ?_, ?_⟩
  · exact hp2
  · show some (is_california_state (sl "California")) = some true
    decide

theorem ghwPosition_noneState {b : BioFetch} {p1 : PlayerRec}
    (hpos : p1.position.isSome = true)
    (hst : p1.state = none) :
    ∃ q, ghwPosition b p1 = .ok q ∧
      q.state = some (sl "California") ∧ q.is_in_state = some true := by
  obtain ⟨ps, hps⟩ := Option.isSome_iff_exists.mp hpos
  unfold ghwPosition
  rw [hps]
  dsimp only
  have hp2 : (if ps = sl "Unknown" then
      match b.positionElemText with
      | some t => { p1 with position := some (normalize_position t) }
      | none => p1
    else p1).state = none := by
    rw [ghwP2_state]
    exact hst
  exact ⟨_, ghwFinal_state_none hp2, rfl, rfl⟩

theorem ghwPosition_defined (b : BioFetch) (p1 q : PlayerRec)
    (h : ghwPosition b p1 = .ok q) :
    q.state.isSome = true ∧ q.is_in_state.isSome = true := by
  unfold ghwPosition at h
  split at h
  · exact absurd h (by simp)
  · exact ghwFinal_defined _ _ h

/-- C7: whenever the state cannot be determined (no bio URL, failed fetch,
empty bio text, or no/empty state found on the page), enrichment of a
record with no prior state and a present position key yields state
`California` and `is_in_state = true`; and every record that enrichment
returns has both fields defined. -/
theorem C7_state_defaults :
    (∀ (p : PlayerRec) (b : BioFetch),
        p.state = none →
        p.position.isSome = true →
        (p.bio_url = none ∨ b.fetchOk = false ∨ b.bioTextNonempty = false ∨
          (extract_hometown_state b.hometownLoc).2 = none ∨
          (extract_hometown_state b.hometownLoc).2 = some (sl "")) →
        ∃ q, get_player_hometown b p = .ok q ∧
          q.state = some (sl "California") ∧ q.is_in_state = some true) ∧
    (∀ (p : PlayerRec) (b : BioFetch) (q : PlayerRec),
        get_player_hometown b p = .ok q →
        q.state.isSome = true ∧ q.is_in_state.isSome = true) := by
  constructor
  · intro p b hst hpos hcase
    unfold get_player_hometown
    cases hbu : p.bio_url with
    | none => exact ⟨_, rfl, rfl, rfl⟩
    | some u =>
        by_cases hf : b.fetchOk = true
        · have hnf : (!b.fetchOk) = false := by rw [hf]; rfl
          rw [hnf, if_neg (by simp)]
          have hpos1 : (ghwHomeState b p).position.isSome = true := by
            unfold ghwHomeState
            split
            · exact hpos
            · exact hpos
          by_cases ht : b.bioTextNonempty = true
          · have hst1 : (ghwHomeState b p).state = some (sl "California") := by
              unfold ghwHomeState
              rw [if_pos ht]
              show some _ = some (sl "California")
              refine congrArg some ?_
              rcases hcase with h | h | h | h | h
              · rw [hbu] at h
                exact absurd h (by simp)
              · exact absurd hf (by simp [h])
              · exact absurd ht (by simp [h])
              · rw [h]
              · rw [h]
                rfl
            exact ghwPosition_cal hpos1 hst1
          · have hst1 : (ghwHomeState b p).state = none := by
              unfold ghwHomeState
              rw [if_neg ht]
              exact hst
            exact ghwPosition_noneState hpos1 hst1
        · have hnf : (!b.fetchOk) = true := by
            rw [Bool.eq_false_iff.mpr hf]
            rfl
          rw [hnf, if_pos rfl]
          exact ⟨_, rfl, rfl, rfl⟩
  · intro p b q h
    unfold get_player_hometown at h
    split at h
    · simp only [Except.ok.injEq] at h
      subst h
      exact ⟨rfl, rfl⟩
    · split at h
      · simp only [Except.ok.injEq] at h
        subst h
        exact ⟨rfl, rfl⟩
      · exact ghwPosition_defined _ _ _ h

/-- A freshly extracted record (no state yet) with no bio URL. -/
def c7p : PlayerRec := { position := some (sl "Unknown"), is_in_state := some false }

/-- C7 witness: the theorem applied to a concrete record with no bio URL. -/
theorem C7_state_defaults_witness :
    c7p.state = none ∧
    (∃ q, get_player_hometown {} c7p = .ok q ∧
      q.state = some (sl "California") ∧ q.is_in_state = some true) :=
  ⟨rfl, C7_state_defaults.1 c7p {} rfl rfl (Or.inl rfl)⟩

-- ## Aggregator (`analyze_war_by_position`, source lines 414-457)

/-- One row of the DataFrame consumed by `analyze_war_by_position`:
position, in-state flag and WAR (either may be missing/NaN in the frame). -/
structure ARow where
  position : Option (List Char)
  is_in_state : Bool
  war : Option ℚ
deriving DecidableEq

/-- One row of the summary DataFrame (source lines 438-448).  `none` models
a missing value (pandas `NaN`): a pivot cell with no group behind it, or
the `%Difference` after its denominator was `.replace(0, np.nan)`-ed. -/
structure SummaryRow where
  position : List Char
  inWar : Option ℚ
  inCount : Option ℕ
  outWar : Option ℚ
  outCount : Option ℕ
  warDiff : Option ℚ
  pctDiff : Option ℚ
deriving DecidableEq

/-- The mean of a list of rationals (pandas `mean` over a group). -/
def qmean (l : List ℚ) : ℚ := l.sum / (l.length : ℚ)

/-- Distinct values in first-occurrence order. -/
def dedupFirst (l : List (List Char)) : List (List Char) :=
  l.foldl (fun acc x => if acc.contains x then acc else acc ++ [x]) []

/-- The in-state group of a position. -/
def inGroup (data : List ARow) (pos : List Char) : List ARow :=
  data.filter (fun r => r.position == some pos && r.is_in_state)

/-- The out-of-state group of a position. -/
def outGroup (data : List ARow) (pos : List Char) : List ARow :=
  data.filter (fun r => r.position == some pos && !r.is_in_state)

/-- The `('mean', True)` pivot cell for a position (`NaN` when the position
has no in-state rows). -/
def inWarOf (data : List ARow) (pos : List Char) : Option ℚ :=
  if (inGroup data pos).isEmpty then none
  else some (qmean ((inGroup data pos).filterMap (fun r => r.war)))

/-- The `('count', True)` pivot cell for a position. -/
def inCountOf (data : List ARow) (pos : List Char) : Option ℕ :=
  if (inGroup data pos).isEmpty then none else some (inGroup data pos).length

/-- The `Out-of-State WAR` column value: the `('mean', False)` pivot cell
when that column exists, the filled-in integer 0 otherwise (source
line 442). -/
def outWarOf (data : List ARow) (hasOut : Bool) (pos : List Char) : Option ℚ :=
  if hasOut then
    (if (outGroup data pos).isEmpty then none
     else some (qmean ((outGroup data pos).filterMap (fun r => r.war))))
  else some 0

/-- The `Out-of-State Count` column value (source line 443). -/
def outCountOf (data : List ARow) (hasOut : Bool) (pos : List Char) :
    Option ℕ :=
  if hasOut then
    (if (outGroup data pos).isEmpty then none
     else some (outGroup data pos).length)
  else some 0

/-- The column `WAR Difference` (source line 447): in-state minus out-of-state mean,
`NaN` when either is `NaN`. -/
def warDiffOf (inWar outWar : Option ℚ) : Option ℚ :=
  match inWar, outWar with
  | some a, some c => some (a - c)
  | _, _ => none

/-- The column `%Difference` (source line 448): `100 * diff / outWar.replace(0, nan)`;
`NaN` (`none`) whenever the difference or the replaced denominator is. -/
def pctDiffOf (inWar outWar : Option ℚ) : Option ℚ :=
  match warDiffOf inWar outWar,
        (match outWar with
         | some q => if q = 0 then none else some q
         | none => none) with
  | some d, some m => some (100 * d / m)
  | _, _ => none

/-- One summary row (source lines 438-448) for a position. -/
def mkSummaryRow (data : List ARow) (hasOut : Bool) (pos : List Char) :
    SummaryRow :=
  ⟨pos, inWarOf data pos, inCountOf data pos, outWarOf data hasOut pos,
   outCountOf data hasOut pos,
   warDiffOf (inWarOf data pos) (outWarOf data hasOut pos),
   pctDiffOf (inWarOf data pos) (outWarOf data hasOut pos)⟩

/-- Descending comparison on WAR difference with missing values last
(`sort_values(by='WAR Difference', ascending=False)`, NaN placed last). -/
def diffGeB : Option ℚ → Option ℚ → Bool
  | some a, some c => decide (c ≤ a)
  | some _, none => true
  | none, some _ => false
  | none, none => true

/-- Insertion into a list sorted by descending WAR difference. -/
def insertDesc (x : SummaryRow) : List SummaryRow → List SummaryRow
  | [] => [x]
  | y :: ys => if diffGeB x.warDiff y.warDiff then x :: y :: ys
               else y :: insertDesc x ys

/-- Sort by descending WAR difference. -/
def sortByDiffDesc (l : List SummaryRow) : List SummaryRow :=
  l.foldr insertDesc []

/-- The function `analyze_war_by_position` (source lines 414-457): filter records without
WAR or position, group by (position, in-state), pivot, build the summary
rows, and sort by WAR difference descending.  When the filtered data has no
in-state record at all — in particular on empty input — the unguarded
column lookup `pivot_table[('mean', True)]` (line 440) raises `KeyError`;
only the out-of-state column is guarded (lines 442-443). -/
def analyze_war_by_position (rows : List ARow) :
    Except PyErr (List SummaryRow) :=
  let data := rows.filter (fun r => r.war.isSome && r.position.isSome)
  if !(data.any (fun r => r.is_in_state)) then .error .keyError
  else
    let hasOut := data.any (fun r => !r.is_in_state)
    let positions := dedupFirst (data.filterMap (fun r => r.position))
    .ok (sortByDiffDesc (positions.map (mkSummaryRow data hasOut)))

-- ## Claims C8 and C9

theorem pctDiffOf_undefined (iW oW : Option ℚ)
    (h : oW = none ∨ oW = some 0) : pctDiffOf iW oW = none := by
  rcases h with h | h
  · subst h
    unfold pctDiffOf warDiffOf
    cases iW <;> rfl
  · subst h
    unfold pctDiffOf warDiffOf
    dsimp only
    rw [if_pos rfl]
    cases iW <;> rfl

theorem pctDiffOf_nonzero (iW : Option ℚ) (m : ℚ) (hm : m ≠ 0) :
    pctDiffOf iW (some m) =
      Option.map (fun d => 100 * d / m) (warDiffOf iW (some m)) := by
  unfold pctDiffOf
  dsimp only
  rw [if_neg hm]
  cases iW <;> rfl

theorem mem_insertDesc {x y : SummaryRow} {l : List SummaryRow} :
    y ∈ insertDesc x l ↔ y = x ∨ y ∈ l := by
  induction l with
  | nil => simp [insertDesc]
  | cons z zs ih =>
      unfold insertDesc
      split
      · simp [List.mem_cons]
      · simp only [List.mem_cons, ih]
        tauto

theorem mem_sortByDiffDesc {y : SummaryRow} {l : List SummaryRow} :
    y ∈ sortByDiffDesc l ↔ y ∈ l := by
  unfold sortByDiffDesc
  induction l with
  | nil => simp
  | cons z zs ih =>
      rw [List.foldr_cons, mem_insertDesc, ih, List.mem_cons]

theorem outCountOf_zero_hasOut {data : List ARow} {pos : List Char}
    (h : outCountOf data true pos = some 0) : False := by
  unfold outCountOf at h
  rw [if_pos rfl] at h
  split at h
  · exact absurd h (by simp)
  · next hne =>
      simp only [Option.some_inj] at h
      rw [List.isEmpty_iff] at hne
      exact hne (List.length_eq_zero.mp h)

/-- C8: in every produced summary row, the percent difference is undefined
whenever the out-of-state mean is undefined or zero (in particular when the
out-of-state count is 0), and equals `100 * (WAR difference) / mean`
whenever the out-of-state mean is a nonzero number. -/
theorem C8_percent_difference :
    ∀ (rows : List ARow) (out : List SummaryRow) (row : SummaryRow),
      analyze_war_by_position rows = .ok out →
      row ∈ out →
      ((row.outWar = none ∨ row.outWar = some 0) → row.pctDiff = none) ∧
      (row.outCount = some 0 → row.pctDiff = none) ∧
      (∀ m : ℚ, row.outWar = some m → m ≠ 0 →
        row.pctDiff = Option.map (fun d => 100 * d / m) row.warDiff) := by
  intro rows out row h hmem
  unfold analyze_war_by_position at h
  dsimp only at h
  split at h
  · exact absurd h (by simp)
  · simp only [Except.ok.injEq] at h
    subst h
    rw [mem_sortByDiffDesc] at hmem
    obtain ⟨pos, _, hrow⟩ := List.mem_map.mp hmem
    subst hrow
    refine ⟨?_, ?_, ?_⟩
    · intro hcase
      exact pctDiffOf_undefined _ _ hcase
    · intro hcount
      cases hho : (rows.filter
          (fun r => r.war.isSome && r.position.isSome)).any
          (fun r => !r.is_in_state) with
      | false =>
          exact pctDiffOf_undefined _ _ (Or.inr rfl)
      | true =>
          rw [hho] at hcount
          exact absurd hcount (fun hc => outCountOf_zero_hasOut hc)
    · intro m hm hmne
      have hm' : outWarOf
          (rows.filter (fun r => r.war.isSome && r.position.isSome))
          ((rows.filter (fun r => r.war.isSome && r.position.isSome)).any
            (fun r => !r.is_in_state)) pos = some m := hm
      show pctDiffOf _ (outWarOf _ _ _) =
        Option.map (fun d => 100 * d / m) (warDiffOf _ (outWarOf _ _ _))
      rw [hm']
      exact pctDiffOf_nonzero _ m hmne

/-- Concrete rows for the C8 witness: one in-state and one out-of-state SS
player. -/
def c8rows : List ARow :=
  [⟨some (sl "SS"), true, some 1⟩, ⟨some (sl "SS"), false, some 2⟩]

/-- C8 witness: the theorem applied to a two-row concrete input whose only
summary row has out-of-state mean 2. -/
theorem C8_percent_difference_witness :
    analyze_war_by_position c8rows =
      .ok [mkSummaryRow (c8rows.filter (fun r => r.war.isSome && r.position.isSome))
            true (sl "SS")] ∧
    (mkSummaryRow (c8rows.filter (fun r => r.war.isSome && r.position.isSome))
        true (sl "SS")).pctDiff =
      Option.map (fun d => 100 * d / 2)
        (mkSummaryRow (c8rows.filter (fun r => r.war.isSome && r.position.isSome))
          true (sl "SS")).warDiff := by
  constructor
  · rfl
  · refine (C8_percent_difference c8rows _ _ rfl
      (List.mem_singleton.mpr rfl)).2.2 2 ?_ (by norm_num)
    show outWarOf (c8rows.filter (fun r => r.war.isSome && r.position.isSome))
        true (sl "SS") = some 2
    unfold outWarOf outGroup
    rw [if_pos rfl, if_neg (by decide)]
    refine congrArg some ?_
    show qmean [(2 : ℚ)] = 2
    unfold qmean
    norm_num

/-- C9: aggregation applied to an empty collection raises `KeyError` (the
unguarded `pivot_table[('mean', True)]` lookup at source line 440) instead
of returning an empty collection without error, as the claim states. -/
theorem C9_empty_aggregation_raises :
    analyze_war_by_position [] = .error PyErr.keyError := by decide
